import Mathlib

/-!
Verification of the two-phase conversational triage engine of the
Co-Pilot-Extender repository (server/ai-chat-helper.ts and the two-phase
chat routes), against its natural-language specification.

JavaScript strings are modelled as `List Char`.  The modelled fragment is
the ASCII one: `toLowerCase` remaps `A`–`Z` only, and the `\s` character
class covers the ASCII whitespace characters.  Non-ASCII case mapping and
exotic Unicode whitespace do not occur in any keyword, budget or schema
rule of the engine.
-/

namespace CopilotExtender

/-- JS strings, modelled as lists of characters. -/
abbrev Str := List Char

/-- The character list of a Lean string literal. -/
def lit (s : String) : Str := s.data

/-- Opening curly bracket character (code 123). -/
def lbrace : Char := Char.ofNat 123

/-- Closing curly bracket character (code 125). -/
def rbrace : Char := Char.ofNat 125

/-- `String.prototype.toLowerCase` on a single character (ASCII fragment):
characters `A`–`Z` (codes 65–90) map 32 code points up; everything else is
fixed. -/
def lowerChar (c : Char) : Char :=
  if h : 65 ≤ c.toNat ∧ c.toNat ≤ 90 then
    Char.ofNatAux (c.toNat + 32) (Or.inl (by omega))
  else c

/-- `userMessage.toLowerCase()`. -/
def toLowerStr (s : Str) : Str := s.map lowerChar

/-- The JS regex class `\s` (ASCII fragment): space, tab, line feed,
carriage return, vertical tab, form feed. -/
def jsWS (c : Char) : Bool :=
  c = ' ' || c = '\t' || c = '\n' || c = '\r' || c = '\x0b' || c = '\x0c'

/-- `text.split(/\s+/)`: segments between maximal whitespace runs.  A
leading (resp. trailing) whitespace run contributes a leading (resp.
trailing) empty segment, exactly as in JS; `"".split(/\s+/)` is `[""]`. -/
def splitWS : Str → List Str
  | [] => [[]]
  | c :: rest =>
    if jsWS c then
      match rest with
      | [] => [[], []]
      | c2 :: _ =>
        if jsWS c2 then splitWS rest else [] :: splitWS rest
    else
      match splitWS rest with
      | [] => [[c]]
      | s :: ss => (c :: s) :: ss

/-- `text.split(/\s+/).length`, the engine's whitespace-delimited word
count. -/
def wordCount (s : Str) : Nat := (splitWS s).length

/-- `words.join(" ")`. -/
def joinSp : List Str → Str
  | [] => []
  | [s] => s
  | s :: ss => s ++ ' ' :: joinSp ss

/-- The ellipsis marker appended by `trimToWords`. -/
def dots : Str := lit "..."

/-- `trimToWords` from `getTwoPhaseResponse` (ai-chat-helper.ts lines
146–149): truncate to the first `maxWords` whitespace-delimited words and
append `"..."` if the text was truncated. -/
def trimToWords (text : Str) (maxWords : Nat) : Str :=
  let words := splitWS text
  if maxWords < words.length then joinSp (words.take maxWords) ++ dots
  else text

/-- Does `p` occur as a prefix of `l`? -/
def startsWithStr : Str → Str → Bool
  | [], _ => true
  | _ :: _, [] => false
  | p :: ps, c :: cs => p = c && startsWithStr ps cs

/-- Does `pat` occur as a contiguous substring of `l`?  (JS
`/pat/.test(l)` for a literal pattern.) -/
def containsWord (pat : Str) : Str → Bool
  | [] => startsWithStr pat []
  | l@(_ :: rest) => startsWithStr pat l || containsWord pat rest

/-- `/w1|w2|…/.test(s)` for literal alternatives: some word occurs in
`s`. -/
def testAny (pats : List Str) (s : Str) : Bool :=
  pats.any fun p => containsWord p s

/-- Leftmost match: try the alternation `alt` at each position of the
string, left to right, as JS `String.prototype.match` does for a regex
without the global flag. -/
def firstMatch (alt : Str → Option Str) : Str → Option Str
  | [] => alt []
  | l@(_ :: rest) =>
    match alt l with
    | some m => some m
    | none => firstMatch alt rest

/-- Match a literal alternative at the current position. -/
def matchLitWord (w : Str) (l : Str) : Option Str :=
  if startsWithStr w l then some w else none

/-- Match the alternative `windows\s*\d*` at the current position: the
literal `windows`, then a greedy whitespace run, then a greedy digit
run. -/
def matchWindowsNum (l : Str) : Option Str :=
  if startsWithStr (lit "windows") l then
    let r := l.drop 7
    let ws := r.takeWhile jsWS
    let ds := (r.dropWhile jsWS).takeWhile Char.isDigit
    some (lit "windows" ++ ws ++ ds)
  else none

/-- Match the alternative `mac\s*os` at the current position: the literal
`mac`, a greedy whitespace run, then the literal `os`.  (Only the maximal
whitespace run can be followed by `o`, so the greedy run needs no
backtracking.) -/
def matchMacOs (l : Str) : Option Str :=
  if startsWithStr (lit "mac") l then
    let r := l.drop 3
    let ws := r.takeWhile jsWS
    if startsWithStr (lit "os") (r.dropWhile jsWS) then
      some (lit "mac" ++ ws ++ lit "os")
    else none
  else none

/-- Try a list of alternatives in order at the current position (JS
alternation: first alternative that matches wins). -/
def firstSome : List (Str → Option Str) → Str → Option Str
  | [], _ => none
  | f :: fs, l =>
    match f l with
    | some m => some m
    | none => firstSome fs l

/-- The alternatives of `/windows\s*\d*|macos|mac\s*os|linux|ubuntu|ios|android|chromeos/i`
in source order (extractInfo, line 86). -/
def osAlts : List (Str → Option Str) :=
  [matchWindowsNum, matchLitWord (lit "macos"), matchMacOs,
   matchLitWord (lit "linux"), matchLitWord (lit "ubuntu"),
   matchLitWord (lit "ios"), matchLitWord (lit "android"),
   matchLitWord (lit "chromeos")]

/-- `msg.match(/windows\s*\d*|macos|mac\s*os|linux|ubuntu|ios|android|chromeos/i)`,
returning the matched substring.  `msg` is already lowercased by the
caller, so the `i` flag is inert. -/
def osMatch (msg : Str) : Option Str := firstMatch (firstSome osAlts) msg

/-- The literal alternatives of
`/laptop|desktop|phone|tablet|monitor|pc|computer|macbook|imac/i`
(extractInfo, line 91). -/
def deviceWords : List Str :=
  [lit "laptop", lit "desktop", lit "phone", lit "tablet", lit "monitor",
   lit "pc", lit "computer", lit "macbook", lit "imac"]

/-- `msg.match(/laptop|desktop|phone|tablet|monitor|pc|computer|macbook|imac/i)`,
returning the matched substring. -/
def deviceMatch (msg : Str) : Option Str :=
  firstMatch (firstSome (deviceWords.map matchLitWord)) msg

/-- The literal alternatives of `/windows|mac|linux|ios|android|chromeos/i`
(hasEnoughInfo, line 73). -/
def osTestWords : List Str :=
  [lit "windows", lit "mac", lit "linux", lit "ios", lit "android",
   lit "chromeos"]

/-- The literal alternatives of
`/laptop|desktop|phone|tablet|monitor|pc|computer|screen/i`
(hasEnoughInfo, line 74). -/
def deviceTestWords : List Str :=
  [lit "laptop", lit "desktop", lit "phone", lit "tablet", lit "monitor",
   lit "pc", lit "computer", lit "screen"]

/-- The `CollectedInfo` accumulator record: all fields are optional
strings, absent until filled. -/
structure CollectedInfo where
  os : Option Str := none
  deviceType : Option Str := none
  symptom : Option Str := none
  additionalContext : Option Str := none
deriving DecidableEq, Repr

/-- JS truthiness of an optional string field: `undefined`/`null` and the
empty string are falsy (`!!(info.os)` and `!info.os` in the source). -/
def truthyS : Option Str → Bool
  | none => false
  | some s => !s.isEmpty

/-- `hasEnoughInfo` (ai-chat-helper.ts lines 69–78): the engine has enough
information when (an OS signal and a device signal are both present) or a
context signal is present. -/
def hasEnoughInfo (collectedInfo : Option CollectedInfo) (userMessage : Str) : Bool :=
  let msg := toLowerStr userMessage
  let info := collectedInfo.getD {}
  let hasOS := truthyS info.os || testAny osTestWords msg
  let hasDevice := truthyS info.deviceType || testAny deviceTestWords msg
  let hasContext := truthyS info.additionalContext || decide (5 ≤ wordCount msg)
  (hasOS && hasDevice) || hasContext

/-- `extractInfo` (ai-chat-helper.ts lines 81–104): fold a user message
into the collected-info record.  `os`/`deviceType` are filled only when
currently falsy, `symptom` is filled once with the first 200 characters of
the message, and every message of at least 5 whitespace-delimited words is
appended (pipe-separated, capped at 300 characters) to
`additionalContext`. -/
def extractInfo (existing : Option CollectedInfo) (userMessage : Str) : CollectedInfo :=
  let info0 := existing.getD {}
  let msg := toLowerStr userMessage
  let info1 :=
    if truthyS info0.os then info0
    else
      match osMatch msg with
      | some m => { info0 with os := some m }
      | none => info0
  let info2 :=
    if truthyS info1.deviceType then info1
    else
      match deviceMatch msg with
      | some m => { info1 with deviceType := some m }
      | none => info1
  let info3 :=
    if truthyS info2.symptom then info2
    else { info2 with symptom := some (userMessage.take 200) }
  if 5 ≤ wordCount userMessage then
    { info3 with
      additionalContext := some
        ((if truthyS info3.additionalContext then
            info3.additionalContext.getD [] ++ lit " | "
          else []) ++ userMessage.take 300) }
  else info3

/-- The two conversation phases (`type ChatPhase = "COLLECT_INFO" | "DIAGNOSE"`). -/
inductive ChatPhase where
  | COLLECT_INFO
  | DIAGNOSE
deriving DecidableEq, Repr

/-- The phase-transition step of the chat routes (replit.md routes code,
lines 463–471 and 883–892):
`if (currentPhase === "COLLECT_INFO" && history.length >= 2 && hasEnoughInfo(collectedInfo, message)) currentPhase = "DIAGNOSE";` -/
def decidePhase (currentPhase : ChatPhase) (collectedInfo : Option CollectedInfo)
    (message : Str) (historyLen : Nat) : ChatPhase :=
  if currentPhase = ChatPhase.COLLECT_INFO ∧ 2 ≤ historyLen ∧
      hasEnoughInfo collectedInfo message then ChatPhase.DIAGNOSE
  else currentPhase

/-! ## JSON values and `JSON.parse`

The generative backend's raw reply is untrusted text that
`getTwoPhaseResponse` feeds to `JSON.parse`.  We model JSON values with
`Js` and implement the parser on the fragment the engine can meaningfully
receive: objects, arrays, strings (with the standard escapes; `\u` escapes
are restricted to non-surrogate code points), integer numeric literals,
booleans and null.  Fractional/exponent numeric literals are outside the
modelled fragment and are mapped to parse failure. -/

/-- A parsed JSON value / runtime JS value. -/
inductive Js where
  | null
  | bool (b : Bool)
  | num (n : Int)
  | str (s : Str)
  | arr (elems : List Js)
  | obj (fields : List (Str × Js))

/-- JSON whitespace. -/
def jsonWS (c : Char) : Bool :=
  c = ' ' || c = '\t' || c = '\n' || c = '\r'

/-- Drop leading JSON whitespace. -/
def skipWS (l : Str) : Str := l.dropWhile jsonWS

/-- Hexadecimal digit value. -/
def hexVal (c : Char) : Option Nat :=
  if '0' ≤ c ∧ c ≤ '9' then some (c.toNat - 48)
  else if 'a' ≤ c ∧ c ≤ 'f' then some (c.toNat - 87)
  else if 'A' ≤ c ∧ c ≤ 'F' then some (c.toNat - 55)
  else none

/-- Parse the body of a JSON string after the opening quote; returns the
decoded characters and the remaining input after the closing quote. -/
def parseStringBody : Nat → Str → Option (Str × Str)
  | 0, _ => none
  | _ + 1, [] => none
  | fuel + 1, c :: rest =>
    if c = '"' then some ([], rest)
    else if c = '\\' then
      match rest with
      | [] => none
      | e :: rest2 =>
        let cont := fun (ch : Char) (r : Str) =>
          (parseStringBody fuel r).map fun p => (ch :: p.1, p.2)
        if e = '"' then cont '"' rest2
        else if e = '\\' then cont '\\' rest2
        else if e = '/' then cont '/' rest2
        else if e = 'b' then cont '\x08' rest2
        else if e = 'f' then cont '\x0c' rest2
        else if e = 'n' then cont '\n' rest2
        else if e = 'r' then cont '\r' rest2
        else if e = 't' then cont '\t' rest2
        else if e = 'u' then
          match rest2 with
          | h1 :: h2 :: h3 :: h4 :: rest3 =>
            match hexVal h1, hexVal h2, hexVal h3, hexVal h4 with
            | some a, some b, some c', some d =>
              let n := ((a * 16 + b) * 16 + c') * 16 + d
              if h : n < 55296 then cont (Char.ofNatAux n (Or.inl h)) rest3
              else none
            | _, _, _, _ => none
          | _ => none
        else none
    else if c.toNat < 32 then none
    else (parseStringBody fuel rest).map fun p => (c :: p.1, p.2)

/-- Digits to a natural number. -/
def digitsToNat (ds : Str) : Nat :=
  ds.foldl (fun acc c => acc * 10 + (c.toNat - 48)) 0

/-- Parse a JSON integer literal `-?(0|[1-9][0-9]*)`, rejecting a
following `.`/`e`/`E` (fractional and exponent literals are outside the
modelled fragment). -/
def parseIntLit (l : Str) : Option (Int × Str) :=
  let core := fun (m : Str) =>
    let ds := m.takeWhile Char.isDigit
    let rest := m.dropWhile Char.isDigit
    match ds with
    | [] => none
    | d :: ds' =>
      if d = '0' ∧ ds' ≠ [] then none
      else
        match rest with
        | r :: _ =>
          if r = '.' ∨ r = 'e' ∨ r = 'E' then none
          else some ((digitsToNat ds : Int), rest)
        | [] => some ((digitsToNat ds : Int), rest)
  match l with
  | '-' :: m => (core m).map fun p => (-p.1, p.2)
  | _ => core l

mutual

/-- Parse one JSON value (fuel-indexed recursive descent). -/
def parseVal : Nat → Str → Option (Js × Str)
  | 0, _ => none
  | fuel + 1, l =>
    match skipWS l with
    | [] => none
    | c :: rest =>
      if c = '"' then
        (parseStringBody (rest.length + 1) rest).map fun p => (Js.str p.1, p.2)
      else if c = 't' then
        if startsWithStr (lit "rue") rest then some (Js.bool true, rest.drop 3)
        else none
      else if c = 'f' then
        if startsWithStr (lit "alse") rest then some (Js.bool false, rest.drop 4)
        else none
      else if c = 'n' then
        if startsWithStr (lit "ull") rest then some (Js.null, rest.drop 3)
        else none
      else if c = lbrace then
        match skipWS rest with
        | c2 :: rest2 =>
          if c2 = rbrace then some (Js.obj [], rest2)
          else (parseMembers fuel (c2 :: rest2)).map fun p => (Js.obj p.1, p.2)
        | [] => none
      else if c = '[' then
        match skipWS rest with
        | c2 :: rest2 =>
          if c2 = ']' then some (Js.arr [], rest2)
          else (parseElems fuel (c2 :: rest2)).map fun p => (Js.arr p.1, p.2)
        | [] => none
      else
        (parseIntLit (c :: rest)).map fun p => (Js.num p.1, p.2)

/-- Parse the members of a non-empty JSON object, up to and including the
closing bracket. -/
def parseMembers : Nat → Str → Option (List (Str × Js) × Str)
  | 0, _ => none
  | fuel + 1, l =>
    match skipWS l with
    | '"' :: rest =>
      match parseStringBody (rest.length + 1) rest with
      | none => none
      | some (key, rest2) =>
        match skipWS rest2 with
        | ':' :: rest3 =>
          match parseVal fuel rest3 with
          | none => none
          | some (v, rest4) =>
            match skipWS rest4 with
            | ',' :: rest5 =>
              (parseMembers fuel rest5).map fun p => ((key, v) :: p.1, p.2)
            | c :: rest5 =>
              if c = rbrace then some ([(key, v)], rest5) else none
            | [] => none
        | _ => none
    | _ => none

/-- Parse the elements of a non-empty JSON array, up to and including the
closing `]`. -/
def parseElems : Nat → Str → Option (List Js × Str)
  | 0, _ => none
  | fuel + 1, l =>
    match parseVal fuel l with
    | none => none
    | some (v, rest) =>
      match skipWS rest with
      | ',' :: rest2 => (parseElems fuel rest2).map fun p => (v :: p.1, p.2)
      | ']' :: rest2 => some ([v], rest2)
      | _ => none

end

/-- `JSON.parse(raw)`: parse one value and require only whitespace to
remain; `none` models a thrown `SyntaxError`. -/
def jsonParse (raw : Str) : Option Js :=
  match parseVal (raw.length + 1) raw with
  | some (v, rest) => if skipWS rest = [] then some v else none
  | none => none

/-! ## The response normalizer

`getTwoPhaseResponse` (ai-chat-helper.ts lines 135–194) feeds the raw
backend text to `JSON.parse` inside a `try` block, repairs the parsed
object in place, and on any exception falls back to a synthesized
response.  `normalizeAttempt` models the `try`-block body on a parsed
value (exceptions — property access on `null`, strict-mode assignment to a
primitive, `.split`/`.slice` on a value lacking the method — become
`Except.error`), and `normalizeResponse` ties parse, repair and the
`catch` fallback together. -/

/-- The normalized response record returned each turn.  `phase` and
`next_action` are kept as raw strings so that forcing them is a proved
property of the code, not of the model's types. -/
structure StructuredAIResponse where
  phase : Str
  message : Str
  questions : Option Js
  steps : Option Js
  next_action : Str

/-- JS truthiness of a value. -/
def truthy : Js → Bool
  | Js.null => false
  | Js.bool b => b
  | Js.num n => decide (n ≠ 0)
  | Js.str s => !s.isEmpty
  | Js.arr _ => true
  | Js.obj _ => true

/-- Truthiness of a possibly-undefined value. -/
def truthyOpt : Option Js → Bool
  | none => false
  | some v => truthy v

/-- Property lookup on a parsed object: JSON.parse keeps the last
duplicate key, so lookup returns the rightmost binding. -/
def lookupField (fields : List (Str × Js)) (key : Str) : Option Js :=
  (fields.reverse.find? fun p => decide (p.1 = key)).map fun p => p.2

/-- The `.length` property: character count for strings, element count
for arrays, the `length` field (if any) for plain objects, `undefined`
otherwise. -/
def lengthProp : Js → Option Js
  | Js.str s => some (Js.num s.length)
  | Js.arr xs => some (Js.num xs.length)
  | Js.obj fs => lookupField fs (lit "length")
  | _ => none

/-- `x > k` where `x` is a (possibly undefined) `.length` value.
`undefined` compares as NaN, hence `false`.  ToNumber coercion of a
bespoke non-numeric `length` property (only reachable through a
backend-supplied plain object) is outside the modelled fragment and also
yields `false`. -/
def jsGtNat : Option Js → Nat → Bool
  | some (Js.num n), k => decide ((k : Int) < n)
  | _, _ => false

/-- `x === 0` where `x` is a (possibly undefined) `.length` value. -/
def jsEqZero : Option Js → Bool
  | some (Js.num n) => decide (n = 0)
  | _ => false

/-- `v.slice(0, k)`: arrays and strings have `slice`; calling it on any
other value throws a TypeError. -/
def jsSlice (v : Js) (k : Nat) : Except Unit Js :=
  match v with
  | Js.arr xs => Except.ok (Js.arr (xs.take k))
  | Js.str s => Except.ok (Js.str (s.take k))
  | _ => Except.error ()

/-- Fixed generic acknowledgement substituted for a missing/empty message
(line 142). -/
def defaultAck : Str := lit "I\x27m here to help with your IT issue."

/-- Fixed default question substituted for an empty question list
(line 161). -/
def defaultQuestion : Str := lit "Could you share a bit more about what\x27s happening?"

/-- Fixed default step substituted for an empty step list (line 172). -/
def defaultStep : Str := lit "Try restarting your device and check if the issue persists."

/-- Lines 137/141–143: obtain the property map of the parsed value.
Objects expose their fields; arrays expose none of the schema fields but
accept the in-place assignments; `null` throws on the first property
read, and the remaining primitives throw on the first strict-mode
property assignment (`parsed.message = …`), all landing in the `catch`. -/
def objFields : Js → Except Unit (List (Str × Js))
  | Js.obj fs => Except.ok fs
  | Js.arr _ => Except.ok []
  | _ => Except.error ()

/-- Lines 141–149: default the message when falsy, then require a string
(`text.split` on a non-string throws). -/
def messageField (fields : List (Str × Js)) : Except Unit Str :=
  let msgVal :=
    match lookupField fields (lit "message") with
    | some v => if truthy v then v else Js.str defaultAck
    | none => Js.str defaultAck
  match msgVal with
  | Js.str s => Except.ok s
  | _ => Except.error ()

/-- Lines 157–159 / 168–170: clamp the list field via `slice` when it is
truthy with `.length > maxLen`. -/
def clampField (fields : List (Str × Js)) (key : Str) (maxLen : Nat) :
    Except Unit (Option Js) :=
  match lookupField fields key with
  | some v =>
    if truthy v && jsGtNat (lengthProp v) maxLen then (jsSlice v maxLen).map some
    else Except.ok (some v)
  | none => Except.ok none

/-- Lines 160–162 / 171–173: substitute the fixed default when the field
is falsy or has `.length === 0`. -/
def ensureList (q : Option Js) (dflt : Str) : Option Js :=
  if !truthyOpt q || jsEqZero (q.bind lengthProp) then some (Js.arr [Js.str dflt])
  else q

/-- The `try`-block body of `getTwoPhaseResponse` after `JSON.parse`
succeeds (lines 138–176): repair the message, force `phase` and
`next_action` from the requested phase, delete the other phase's list,
clamp and default the retained list. -/
def normalizeAttempt (phase : ChatPhase) (parsed : Js) :
    Except Unit StructuredAIResponse :=
  match objFields parsed with
  | Except.error e => Except.error e
  | Except.ok fields =>
    match messageField fields with
    | Except.error e => Except.error e
    | Except.ok msgStr =>
      match phase with
      | ChatPhase.COLLECT_INFO =>
        match clampField fields (lit "questions") 2 with
        | Except.error e => Except.error e
        | Except.ok q =>
          Except.ok
            { phase := lit "COLLECT_INFO"
              message := trimToWords msgStr 60
              questions := ensureList q defaultQuestion
              steps := none
              next_action := lit "WAIT_FOR_USER" }
      | ChatPhase.DIAGNOSE =>
        match clampField fields (lit "steps") 3 with
        | Except.error e => Except.error e
        | Except.ok s =>
          Except.ok
            { phase := lit "DIAGNOSE"
              message := trimToWords msgStr 80
              steps := ensureList s defaultStep
              questions := none
              next_action := lit "APPLY_STEPS" }

/-- The `catch` fallback of `getTwoPhaseResponse` (lines 178–193): a
synthesized, fully populated response using the raw text (when non-empty)
as the message. -/
def fallbackResponse (phase : ChatPhase) (raw : Str) : StructuredAIResponse :=
  match phase with
  | ChatPhase.COLLECT_INFO =>
    { phase := lit "COLLECT_INFO"
      message := if raw.isEmpty then
          lit "I\x27d like to help. Could you give me a bit more detail?"
        else raw
      questions := some (Js.arr
        [Js.str (lit "What device are you using (laptop, desktop, phone)?"),
         Js.str (lit "What operating system is it running?")])
      steps := none
      next_action := lit "WAIT_FOR_USER" }
  | ChatPhase.DIAGNOSE =>
    { phase := lit "DIAGNOSE"
      message := if raw.isEmpty then lit "Let\x27s try a basic fix first." else raw
      questions := none
      steps := some (Js.arr
        [Js.str (lit "Restart your device and see if the issue persists.")])
      next_action := lit "APPLY_STEPS" }

/-- The normalization step of `getTwoPhaseResponse` (lines 135–194) as a
total function of the raw backend string: parse, repair, and fall back on
any exception. -/
def normalizeResponse (phase : ChatPhase) (raw : Str) : StructuredAIResponse :=
  match jsonParse raw with
  | some v =>
    match normalizeAttempt phase v with
    | Except.ok r => r
    | Except.error _ => fallbackResponse phase raw
  | none => fallbackResponse phase raw

/-- The string tag the engine writes for a phase. -/
def phaseTag : ChatPhase → Str
  | ChatPhase.COLLECT_INFO => lit "COLLECT_INFO"
  | ChatPhase.DIAGNOSE => lit "DIAGNOSE"

/-- The `next_action` tag dictated by a phase. -/
def actionTag : ChatPhase → Str
  | ChatPhase.COLLECT_INFO => lit "WAIT_FOR_USER"
  | ChatPhase.DIAGNOSE => lit "APPLY_STEPS"

/-- Is the optional value a non-empty array of strings of at most `hi`
entries?  (The schema shape of `questions`/`steps`.) -/
def strListBounded (hi : Nat) : Option Js → Bool
  | some (Js.arr xs) =>
    decide (1 ≤ xs.length) && decide (xs.length ≤ hi) &&
      xs.all fun x => match x with | Js.str _ => true | _ => false
  | _ => false

/-- Is the optional value a non-empty array of at most `hi` entries?
(Any value that is not an array at all fails.) -/
def nonEmptyListUpTo (hi : Nat) : Option Js → Bool
  | some (Js.arr xs) => decide (1 ≤ xs.length) && decide (xs.length ≤ hi)
  | _ => false

/-- Weak shape bound: present, and whenever it is an array it is a
non-empty one of at most `hi` entries (non-array passthrough values are
allowed). -/
def arrBounded (hi : Nat) : Option Js → Bool
  | some (Js.arr xs) => decide (1 ≤ xs.length) && decide (xs.length ≤ hi)
  | some _ => true
  | none => false

/-- Structural schema validity of a normalized response for a phase:
correct phase and action tags, non-empty message, the phase-appropriate
field a non-empty string list within its count cap, the other field
absent.  (Word budgets are a separate property.) -/
def schemaValid (phase : ChatPhase) (r : StructuredAIResponse) : Bool :=
  decide (r.phase = phaseTag phase) && decide (r.next_action = actionTag phase) &&
  !r.message.isEmpty &&
  (match phase with
   | ChatPhase.COLLECT_INFO =>
     r.steps.isNone && strListBounded 2 r.questions
   | ChatPhase.DIAGNOSE =>
     r.questions.isNone && strListBounded 3 r.steps)

/-! ## The conversation orchestrator

The two chat routes (`/api/tickets/:id/chat` and `/api/copilot/chat` in
the routes code embedded in replit.md, lines 437–520 and 862–954) run the
same per-turn algorithm on a conversation: extract info from the message,
decide the phase, call the backend, normalize, then persist phase,
collected info and the two new log entries.  A thrown backend call is
caught and reported as a turn-level error before any persistence ran. -/

/-- The conversation state the routes persist each turn. -/
structure ConvState where
  phase : ChatPhase
  collectedInfo : Option CollectedInfo
  log : List (Str × Str)
deriving DecidableEq, Repr

/-- One turn's inputs: the user message, the client-supplied history
length, and the backend call's outcome — `Except.error` models a thrown
transport/availability failure, `Except.ok content` the completion's
(nullable) message content, defaulted to `"{}"` by the helper. -/
structure TurnInput where
  message : Str
  historyLen : Nat
  backend : Except Unit (Option Str)

/-- The turn-level error message the routes return with status 500. -/
def turnError : Str := lit "Failed to process chat message"

/-- One chat turn: fold the message into the collected info, decide the
phase, call the backend, normalize; on backend failure the turn errors
before any write.  On success returns the persisted state and the
structured response sent to the caller. -/
def handleTurn (st : ConvState) (t : TurnInput) :
    Except Str (ConvState × StructuredAIResponse) :=
  let info := extractInfo st.collectedInfo t.message
  let ph := decidePhase st.phase (some info) t.message t.historyLen
  match t.backend with
  | Except.error _ => Except.error turnError
  | Except.ok content =>
    let raw := content.getD (lit "\x7b\x7d")
    let resp := normalizeResponse ph raw
    Except.ok
      ({ phase := ph
         collectedInfo := some info
         log := st.log ++ [(lit "user", t.message), (lit "assistant", resp.message)] },
       resp)

/-- The conversation state as persisted after a turn: the routes only
write through `storage.updateConversation`/`addConversationMessage` after
the backend call returned, so a failed turn leaves the stored state at
its pre-turn value. -/
def persistTurn (st : ConvState) (t : TurnInput) : ConvState :=
  match handleTurn st t with
  | Except.ok (st', _) => st'
  | Except.error _ => st

/-- Run a sequence of turns against the store. -/
def runTurns (st : ConvState) (ts : List TurnInput) : ConvState :=
  ts.foldl persistTurn st

/-- A backend reply that is a JSON object with a truthy non-array
`questions` value; the enforcement block passes it through. -/
def rawQuestionsNum : Str := lit "\x7b\"message\":\"hi\",\"questions\":5\x7d"

/-- Following the claim's wording: "operating system is known" — the slot
is filled or the lowercased latest message mentions an OS name. -/
def osKnownClaim (info : Option CollectedInfo) (msg : Str) : Bool :=
  truthyS (info.getD {}).os || testAny osTestWords (toLowerStr msg)

/-- Following the claim's wording: "device type is known". -/
def deviceKnownClaim (info : Option CollectedInfo) (msg : Str) : Bool :=
  truthyS (info.getD {}).deviceType || testAny deviceTestWords (toLowerStr msg)

/-- Following the claim's wording: "the latest message, combined with any
prior signal, contains at least 5 words" — a prior context signal or a
5-word message. -/
def contextSignalClaim (info : Option CollectedInfo) (msg : Str) : Bool :=
  truthyS (info.getD {}).additionalContext || decide (5 ≤ wordCount (toLowerStr msg))

/-- Following the claim's wording of "enough information". -/
def enoughInfoClaim (info : Option CollectedInfo) (msg : Str) : Bool :=
  (osKnownClaim info msg && deviceKnownClaim info msg) || contextSignalClaim info msg

/-- A fully filled collected-info record, for the C7 witness. -/
def filledInfo : CollectedInfo :=
  ⟨some (lit "windows"), some (lit "laptop"), some (lit "screen is black"),
   some (lit "ctx")⟩

/-- A later message contradicting the stored slots. -/
def contradictingMsg : Str := lit "it is a mac os desktop now"

/-- Not an uppercase ASCII letter (codes 65–90). -/
def notUpper (c : Char) : Bool := decide (¬(65 ≤ c.toNat ∧ c.toNat ≤ 90))

/-- A string with no uppercase ASCII letters — "entirely lowercase" in
the sense relevant to `toLowerCase` output. -/
def isLowerStr (s : Str) : Bool := s.all notUpper

/-- The message word budget dictated by a phase (60 in COLLECT_INFO, 80
in DIAGNOSE). -/
def wordBudget : ChatPhase → Nat
  | ChatPhase.COLLECT_INFO => 60
  | ChatPhase.DIAGNOSE => 80

/-- A non-JSON backend reply of 61 whitespace-delimited words. -/
def longRaw : Str := joinSp (List.replicate 61 ['w'])

/-! ## Inversion lemmas for the normalizer -/

/-- Inversion of a successful COLLECT_INFO repair: the result is exactly
the record the enforcement block builds. -/
theorem normalizeAttempt_collect_ok {v : Js} {r : StructuredAIResponse}
    (h : normalizeAttempt ChatPhase.COLLECT_INFO v = Except.ok r) :
    ∃ fields msgStr q, objFields v = Except.ok fields ∧
      messageField fields = Except.ok msgStr ∧
      clampField fields (lit "questions") 2 = Except.ok q ∧
      r = { phase := lit "COLLECT_INFO", message := trimToWords msgStr 60,
            questions := ensureList q defaultQuestion, steps := none,
            next_action := lit "WAIT_FOR_USER" } := by
  unfold normalizeAttempt at h
  cases h1 : objFields v with
  | error e => simp only [h1] at h; exact Except.noConfusion h
  | ok fields =>
    simp only [h1] at h
    cases h2 : messageField fields with
    | error e => simp only [h2] at h; exact Except.noConfusion h
    | ok msgStr =>
      simp only [h2] at h
      cases h3 : clampField fields (lit "questions") 2 with
      | error e => simp only [h3] at h; exact Except.noConfusion h
      | ok q =>
        simp only [h3] at h
        exact ⟨fields, msgStr, q, rfl, h2, h3, (Except.ok.inj h).symm⟩

/-- Inversion of a successful DIAGNOSE repair. -/
theorem normalizeAttempt_diagnose_ok {v : Js} {r : StructuredAIResponse}
    (h : normalizeAttempt ChatPhase.DIAGNOSE v = Except.ok r) :
    ∃ fields msgStr s, objFields v = Except.ok fields ∧
      messageField fields = Except.ok msgStr ∧
      clampField fields (lit "steps") 3 = Except.ok s ∧
      r = { phase := lit "DIAGNOSE", message := trimToWords msgStr 80,
            steps := ensureList s defaultStep, questions := none,
            next_action := lit "APPLY_STEPS" } := by
  unfold normalizeAttempt at h
  cases h1 : objFields v with
  | error e => simp only [h1] at h; exact Except.noConfusion h
  | ok fields =>
    simp only [h1] at h
    cases h2 : messageField fields with
    | error e => simp only [h2] at h; exact Except.noConfusion h
    | ok msgStr =>
      simp only [h2] at h
      cases h3 : clampField fields (lit "steps") 3 with
      | error e => simp only [h3] at h; exact Except.noConfusion h
      | ok s =>
        simp only [h3] at h
        exact ⟨fields, msgStr, s, rfl, h2, h3, (Except.ok.inj h).symm⟩

/-- Both enforcement paths force the phase and action tags dictated by
the requested phase. -/
theorem normalizeResponse_tags (phase : ChatPhase) (raw : Str) :
    (normalizeResponse phase raw).phase = phaseTag phase ∧
    (normalizeResponse phase raw).next_action = actionTag phase := by
  unfold normalizeResponse
  cases hp : jsonParse raw with
  | none =>
    cases phase <;> simp [hp, fallbackResponse, phaseTag, actionTag]
  | some v =>
    simp only [hp]
    cases hn : normalizeAttempt phase v with
    | error e =>
      cases phase <;> simp_all [fallbackResponse, phaseTag, actionTag]
    | ok r =>
      simp only [hn]
      cases phase with
      | COLLECT_INFO =>
        obtain ⟨f, m, q, -, -, -, hr⟩ := normalizeAttempt_collect_ok hn
        subst hr; exact ⟨rfl, rfl⟩
      | DIAGNOSE =>
        obtain ⟨f, m, s, -, -, -, hr⟩ := normalizeAttempt_diagnose_ok hn
        subst hr; exact ⟨rfl, rfl⟩

/-- A clamped then defaulted list field is present and, whenever it is an
array, non-empty with at most `maxLen` entries. -/
theorem clampField_ensureList_bounded {fields : List (Str × Js)} {key : Str}
    {maxLen : Nat} {q : Option Js} (hk : 1 ≤ maxLen)
    (h : clampField fields key maxLen = Except.ok q) {dflt : Str} :
    arrBounded maxLen (ensureList q dflt) = true := by
  unfold clampField at h
  cases hl : lookupField fields key with
  | none =>
    simp only [hl] at h
    injection h with h'
    subst h'
    simp [ensureList, truthyOpt, arrBounded, hk]
  | some v =>
    simp only [hl] at h
    by_cases hc : (truthy v && jsGtNat (lengthProp v) maxLen) = true
    · rw [if_pos hc] at h
      have hgt := (Bool.and_eq_true _ _).mp hc
      cases v with
      | arr xs =>
        simp only [jsSlice, Except.map] at h
        injection h with h'
        subst h'
        have hxs : maxLen < xs.length := by
          have h2 := hgt.2
          simp [jsGtNat, lengthProp] at h2
          omega
        have hlen : (xs.take maxLen).length = maxLen := by
          rw [List.length_take]
          omega
        have ht : truthyOpt (some (Js.arr (xs.take maxLen))) = true := rfl
        have hz : jsEqZero (lengthProp (Js.arr (xs.take maxLen))) = false := by
          simp [jsEqZero, lengthProp, hlen]
          omega
        simp [ensureList, ht, hz, arrBounded, hlen, hk]
      | str s =>
        simp only [jsSlice, Except.map] at h
        injection h with h'
        subst h'
        have hs : maxLen < s.length := by
          have h2 := hgt.2
          simp [jsGtNat, lengthProp] at h2
          omega
        have hlen : (s.take maxLen).length = maxLen := by
          rw [List.length_take]
          omega
        have hne : ¬ (s.take maxLen) = [] := by
          intro he
          rw [he] at hlen
          simp at hlen
          omega
        have ht : truthyOpt (some (Js.str (s.take maxLen))) = true := by
          simp [truthyOpt, truthy, List.isEmpty_iff, hne]
        have hz : jsEqZero (lengthProp (Js.str (s.take maxLen))) = false := by
          simp [jsEqZero, lengthProp, hlen]
          omega
        simp [ensureList, ht, hz, arrBounded]
      | null => simp [jsSlice, Except.map] at h
      | bool b => simp [jsSlice, Except.map] at h
      | num n => simp [jsSlice, Except.map] at h
      | obj fs => simp [jsSlice, Except.map] at h
    · rw [if_neg hc] at h
      injection h with h'
      subst h'
      unfold ensureList
      by_cases hd : (!truthyOpt (some v) || jsEqZero ((some v).bind lengthProp)) = true
      · rw [if_pos hd]
        simp [arrBounded, hk]
      · rw [if_neg hd]

        cases v with
        | arr xs =>
          have h1 : ¬ xs.length = 0 := by
            intro h0
            apply hd
            simp [jsEqZero, lengthProp, h0]
          have h2 : ¬ maxLen < xs.length := by
            intro hlt
            apply hc
            simp [truthy, jsGtNat, lengthProp]
            omega
          simp [arrBounded]
          omega
        | null => simp [arrBounded]
        | bool b => simp [arrBounded]
        | num n => simp [arrBounded]
        | str s => simp [arrBounded]
        | obj fs => simp [arrBounded]

/-- A clamped-then-defaulted list field is always present. -/
theorem ensureList_isSome (q : Option Js) (dflt : Str) :
    (ensureList q dflt).isSome = true := by
  unfold ensureList
  cases q with
  | none => rfl
  | some v => split <;> rfl

/-- Shape facts about every COLLECT_INFO normalization result. -/
theorem normalizeResponse_collect_shape (raw : Str) :
    (normalizeResponse ChatPhase.COLLECT_INFO raw).steps = none ∧
    ((normalizeResponse ChatPhase.COLLECT_INFO raw).questions).isSome = true ∧
    arrBounded 2 (normalizeResponse ChatPhase.COLLECT_INFO raw).questions = true := by
  unfold normalizeResponse
  cases hp : jsonParse raw with
  | none => exact ⟨rfl, rfl, rfl⟩
  | some v =>
    simp only [hp]
    cases hn : normalizeAttempt ChatPhase.COLLECT_INFO v with
    | error e => exact ⟨rfl, rfl, rfl⟩
    | ok r =>
      obtain ⟨f, m, q, -, -, hq, hr⟩ := normalizeAttempt_collect_ok hn
      subst hr
      exact ⟨rfl, ensureList_isSome _ _,
        clampField_ensureList_bounded (by omega) hq⟩

/-- Shape facts about every DIAGNOSE normalization result. -/
theorem normalizeResponse_diagnose_shape (raw : Str) :
    (normalizeResponse ChatPhase.DIAGNOSE raw).questions = none ∧
    ((normalizeResponse ChatPhase.DIAGNOSE raw).steps).isSome = true ∧
    arrBounded 3 (normalizeResponse ChatPhase.DIAGNOSE raw).steps = true := by
  unfold normalizeResponse
  cases hp : jsonParse raw with
  | none => exact ⟨rfl, rfl, rfl⟩
  | some v =>
    simp only [hp]
    cases hn : normalizeAttempt ChatPhase.DIAGNOSE v with
    | error e => exact ⟨rfl, rfl, rfl⟩
    | ok r =>
      obtain ⟨f, m, s, -, -, hs, hr⟩ := normalizeAttempt_diagnose_ok hn
      subst hr
      exact ⟨rfl, ensureList_isSome _ _,
        clampField_ensureList_bounded (by omega) hs⟩

/-- The synthesized fallback is schema-valid for its phase. -/
theorem fallback_schemaValid (phase : ChatPhase) (raw : Str) :
    schemaValid phase (fallbackResponse phase raw) = true := by
  cases phase with
  | COLLECT_INFO =>
    unfold schemaValid fallbackResponse
    by_cases hr : raw.isEmpty
    · simp [hr, phaseTag, actionTag, strListBounded]
      decide
    · simp [hr, phaseTag, actionTag, strListBounded]
  | DIAGNOSE =>
    unfold schemaValid fallbackResponse
    by_cases hr : raw.isEmpty
    · simp [hr, phaseTag, actionTag, strListBounded]
      decide
    · simp [hr, phaseTag, actionTag, strListBounded]

/-! ## Claim theorems for the normalizer -/

/-- **C1** (error_handling): for every raw backend string, the
normalization step of getTwoPhaseResponse returns a complete response —
the phase-appropriate list field is always present and the other phase's
field absent — and when parsing fails it returns exactly the synthesized
fallback for the requested phase, which is schema-valid and uses the raw
text as the message whenever the raw text is non-empty. -/
theorem c1_normalizer_total_and_fallback (phase : ChatPhase) (raw : Str) :
    ((normalizeResponse ChatPhase.COLLECT_INFO raw).steps = none ∧
      ((normalizeResponse ChatPhase.COLLECT_INFO raw).questions).isSome = true ∧
      (normalizeResponse ChatPhase.DIAGNOSE raw).questions = none ∧
      ((normalizeResponse ChatPhase.DIAGNOSE raw).steps).isSome = true) ∧
    (jsonParse raw = none →
      normalizeResponse phase raw = fallbackResponse phase raw ∧
      schemaValid phase (normalizeResponse phase raw) = true ∧
      (raw ≠ [] → (normalizeResponse phase raw).message = raw)) := by
  refine ⟨⟨(normalizeResponse_collect_shape raw).1,
    (normalizeResponse_collect_shape raw).2.1,
    (normalizeResponse_diagnose_shape raw).1,
    (normalizeResponse_diagnose_shape raw).2.1⟩, ?_⟩
  intro hp
  have he : normalizeResponse phase raw = fallbackResponse phase raw := by
    unfold normalizeResponse
    simp only [hp]
  refine ⟨he, ?_, ?_⟩
  · rw [he]
    exact fallback_schemaValid phase raw
  · intro hraw
    rw [he]
    cases phase <;> simp [fallbackResponse, List.isEmpty_iff, hraw]

/-- Witness for C1 at the spec's Scenario C input. -/
theorem c1_normalizer_total_and_fallback_witness :
    normalizeResponse ChatPhase.DIAGNOSE (lit "not json at all") =
      fallbackResponse ChatPhase.DIAGNOSE (lit "not json at all") ∧
    schemaValid ChatPhase.DIAGNOSE
      (normalizeResponse ChatPhase.DIAGNOSE (lit "not json at all")) = true ∧
    (normalizeResponse ChatPhase.DIAGNOSE (lit "not json at all")).message =
      lit "not json at all" := by
  have h := (c1_normalizer_total_and_fallback ChatPhase.DIAGNOSE
    (lit "not json at all")).2 (by rfl)
  exact ⟨h.1, h.2.1, h.2.2 (by decide)⟩

/-- **C2 counterexample**: on the raw string `{"message":"hi","questions":5}`
with requested phase COLLECT_INFO, the normalized `questions` field is the
number `5`, not a non-empty list of 1–2 entries, so shape exclusivity as
claimed fails. -/
theorem c2_shape_exclusivity_cex :
    nonEmptyListUpTo 2
      ((normalizeResponse ChatPhase.COLLECT_INFO rawQuestionsNum).questions) = false ∧
    (normalizeResponse ChatPhase.COLLECT_INFO rawQuestionsNum).questions =
      some (Js.num 5) := ⟨rfl, rfl⟩

/-- **C2 (amended)**: for every raw backend string, in COLLECT_INFO the
result has no `steps` field and always has a `questions` field which,
whenever it is an array, is non-empty with at most 2 entries — but a
truthy non-array `questions` value supplied by the backend is passed
through (possibly string-sliced) instead of being replaced by a list;
symmetrically for DIAGNOSE with `steps` bounded by 3. -/
theorem c2_shape_exclusivity_amended (raw : Str) :
    (normalizeResponse ChatPhase.COLLECT_INFO raw).steps = none ∧
    arrBounded 2 (normalizeResponse ChatPhase.COLLECT_INFO raw).questions = true ∧
    (normalizeResponse ChatPhase.DIAGNOSE raw).questions = none ∧
    arrBounded 3 (normalizeResponse ChatPhase.DIAGNOSE raw).steps = true :=
  ⟨(normalizeResponse_collect_shape raw).1,
   (normalizeResponse_collect_shape raw).2.2,
   (normalizeResponse_diagnose_shape raw).1,
   (normalizeResponse_diagnose_shape raw).2.2⟩

/-- **C4** (security_hyperproperties): the `phase` and `next_action`
fields of the normalized response are fully determined by the requested
phase — COLLECT_INFO yields WAIT_FOR_USER, DIAGNOSE yields APPLY_STEPS —
and coincide for any two raw backend strings, including ones
self-reporting a different phase or action. -/
theorem c4_forced_phase_and_action (phase : ChatPhase) (raw raw2 : Str) :
    (normalizeResponse phase raw).phase = phaseTag phase ∧
    (normalizeResponse phase raw).next_action = actionTag phase ∧
    (normalizeResponse ChatPhase.COLLECT_INFO raw).next_action = lit "WAIT_FOR_USER" ∧
    (normalizeResponse ChatPhase.DIAGNOSE raw).next_action = lit "APPLY_STEPS" ∧
    (normalizeResponse phase raw).phase = (normalizeResponse phase raw2).phase ∧
    (normalizeResponse phase raw).next_action = (normalizeResponse phase raw2).next_action := by
  obtain ⟨h1, h2⟩ := normalizeResponse_tags phase raw
  obtain ⟨h1', h2'⟩ := normalizeResponse_tags phase raw2
  refine ⟨h1, h2, (normalizeResponse_tags ChatPhase.COLLECT_INFO raw).2,
    (normalizeResponse_tags ChatPhase.DIAGNOSE raw).2, ?_, ?_⟩
  · rw [h1, h1']
  · rw [h2, h2']

/-! ## Claim theorems for the phase policy and orchestrator -/

/-- **C5** (functional_correctness): from COLLECT_INFO the phase policy
transitions to DIAGNOSE iff turnCount ≥ 2 and the engine's
enough-information test holds; that test coincides with the claim's
characterization, and with turnCount 0 or 1 the result is never
DIAGNOSE. -/
theorem c5_phase_policy (info : Option CollectedInfo) (msg : Str) (n : Nat) :
    (decidePhase ChatPhase.COLLECT_INFO info msg n = ChatPhase.DIAGNOSE ↔
      2 ≤ n ∧ hasEnoughInfo info msg = true) ∧
    hasEnoughInfo info msg = enoughInfoClaim info msg ∧
    decidePhase ChatPhase.COLLECT_INFO info msg 0 = ChatPhase.COLLECT_INFO ∧
    decidePhase ChatPhase.COLLECT_INFO info msg 1 = ChatPhase.COLLECT_INFO := by
  refine ⟨?_, rfl, by simp [decidePhase], by simp [decidePhase]⟩
  unfold decidePhase
  by_cases h2 : 2 ≤ n
  · by_cases he : hasEnoughInfo info msg = true
    · simp [h2, he]
    · simp [h2, he]
  · simp [h2]

/-- Witness for C5: with two prior messages and a message naming both an
OS and a device, the policy transitions to DIAGNOSE. -/
theorem c5_phase_policy_witness :
    decidePhase ChatPhase.COLLECT_INFO none
      (lit "my windows laptop is broken today") 2 = ChatPhase.DIAGNOSE :=
  ((c5_phase_policy none (lit "my windows laptop is broken today") 2).1).mpr
    ⟨by omega, by decide⟩

/-- A failed turn persists nothing: DIAGNOSE is kept trivially. -/
theorem persistTurn_diagnose {st : ConvState} (h : st.phase = ChatPhase.DIAGNOSE)
    (t : TurnInput) : (persistTurn st t).phase = ChatPhase.DIAGNOSE := by
  unfold persistTurn handleTurn
  cases hb : t.backend with
  | error e => simpa using h
  | ok content => simp [decidePhase, h]

/-- Over any sequence of turns, DIAGNOSE is preserved. -/
theorem runTurns_diagnose {st : ConvState} (h : st.phase = ChatPhase.DIAGNOSE)
    (ts : List TurnInput) : (runTurns st ts).phase = ChatPhase.DIAGNOSE := by
  induction ts generalizing st with
  | nil => simpa [runTurns] using h
  | cons t ts ih =>
    simp only [runTurns, List.foldl_cons]
    exact ih (persistTurn_diagnose h t)

/-- Inversion of a successful turn. -/
theorem handleTurn_ok_inv {st : ConvState} {t : TurnInput} {st' : ConvState}
    {resp : StructuredAIResponse}
    (h : handleTurn st t = Except.ok (st', resp)) :
    ∃ content, t.backend = Except.ok content ∧
      st'.phase = decidePhase st.phase
        (some (extractInfo st.collectedInfo t.message)) t.message t.historyLen ∧
      resp = normalizeResponse st'.phase (content.getD (lit "\x7b\x7d")) := by
  unfold handleTurn at h
  cases hb : t.backend with
  | error e => simp only [hb] at h; exact Except.noConfusion h
  | ok content =>
    simp only [hb] at h
    injection h with h'
    injection h' with hst hresp
    subst hst
    subst hresp
    exact ⟨content, rfl, rfl, rfl⟩

/-- **C6** (temporal): once a conversation's persisted phase is DIAGNOSE,
every later turn leaves the persisted phase DIAGNOSE, and any successful
later turn computes a DIAGNOSE state and returns a response whose phase
tag is DIAGNOSE: the step relation never moves a conversation back to
COLLECT_INFO. -/
theorem c6_phase_monotonic {st : ConvState} (h : st.phase = ChatPhase.DIAGNOSE)
    (ts : List TurnInput) (t : TurnInput) :
    (runTurns st ts).phase = ChatPhase.DIAGNOSE ∧
    (persistTurn (runTurns st ts) t).phase = ChatPhase.DIAGNOSE ∧
    (∀ st' resp, handleTurn (runTurns st ts) t = Except.ok (st', resp) →
      st'.phase = ChatPhase.DIAGNOSE ∧ resp.phase = lit "DIAGNOSE") := by
  refine ⟨runTurns_diagnose h ts,
    persistTurn_diagnose (runTurns_diagnose h ts) t, ?_⟩
  intro st' resp hok
  obtain ⟨content, hb, hph, hresp⟩ := handleTurn_ok_inv hok
  have hphase : st'.phase = ChatPhase.DIAGNOSE := by
    rw [hph]
    simp [decidePhase, runTurns_diagnose h ts]
  refine ⟨hphase, ?_⟩
  rw [hresp, hphase]
  exact (normalizeResponse_tags ChatPhase.DIAGNOSE _).1

/-- Witness for C6 on a concrete DIAGNOSE conversation and turn. -/
theorem c6_phase_monotonic_witness :
    (persistTurn (runTurns ⟨ChatPhase.DIAGNOSE, none, []⟩ [])
      ⟨lit "hi", 3, Except.ok none⟩).phase = ChatPhase.DIAGNOSE :=
  (c6_phase_monotonic rfl [] ⟨lit "hi", 3, Except.ok none⟩).2.1

/-- **C9** (error_handling): a thrown backend call makes the turn error
out to the caller, and the conversation's persisted state — phase,
collected info and message log — is left at its pre-turn value: no
partial commit. -/
theorem c9_backend_failure_no_commit (st : ConvState) (msg : Str) (n : Nat) :
    handleTurn st ⟨msg, n, Except.error ()⟩ = Except.error turnError ∧
    persistTurn st ⟨msg, n, Except.error ()⟩ = st :=
  ⟨rfl, rfl⟩

/-! ## The extractor's field-level behaviour

`extractInfo` performs four sequential in-place updates, each touching a
single field.  The step lemmas below record which projections each step
leaves unchanged, and the four `extractInfo_*` lemmas flatten the
pipeline into one expression per field. -/

theorem os_osStep (i : CollectedInfo) (om : Option Str) (c : Prop) [Decidable c] :
    (if c then i else
      match om with
      | some s => { i with os := some s }
      | none => i).os =
    (if c then i.os else
      match om with
      | some s => some s
      | none => i.os) := by
  split
  · rfl
  · cases om <;> rfl

theorem dev_osStep (i : CollectedInfo) (om : Option Str) (c : Prop) [Decidable c] :
    (if c then i else
      match om with
      | some s => { i with os := some s }
      | none => i).deviceType = i.deviceType := by
  split
  · rfl
  · cases om <;> rfl

theorem sym_osStep (i : CollectedInfo) (om : Option Str) (c : Prop) [Decidable c] :
    (if c then i else
      match om with
      | some s => { i with os := some s }
      | none => i).symptom = i.symptom := by
  split
  · rfl
  · cases om <;> rfl

theorem ac_osStep (i : CollectedInfo) (om : Option Str) (c : Prop) [Decidable c] :
    (if c then i else
      match om with
      | some s => { i with os := some s }
      | none => i).additionalContext = i.additionalContext := by
  split
  · rfl
  · cases om <;> rfl

theorem os_devStep (i : CollectedInfo) (dm : Option Str) (c : Prop) [Decidable c] :
    (if c then i else
      match dm with
      | some s => { i with deviceType := some s }
      | none => i).os = i.os := by
  split
  · rfl
  · cases dm <;> rfl

theorem dev_devStep (i : CollectedInfo) (dm : Option Str) (c : Prop) [Decidable c] :
    (if c then i else
      match dm with
      | some s => { i with deviceType := some s }
      | none => i).deviceType =
    (if c then i.deviceType else
      match dm with
      | some s => some s
      | none => i.deviceType) := by
  split
  · rfl
  · cases dm <;> rfl

theorem sym_devStep (i : CollectedInfo) (dm : Option Str) (c : Prop) [Decidable c] :
    (if c then i else
      match dm with
      | some s => { i with deviceType := some s }
      | none => i).symptom = i.symptom := by
  split
  · rfl
  · cases dm <;> rfl

theorem ac_devStep (i : CollectedInfo) (dm : Option Str) (c : Prop) [Decidable c] :
    (if c then i else
      match dm with
      | some s => { i with deviceType := some s }
      | none => i).additionalContext = i.additionalContext := by
  split
  · rfl
  · cases dm <;> rfl

theorem os_symStep (i : CollectedInfo) (v : Option Str) (c : Prop) [Decidable c] :
    (if c then i else { i with symptom := v }).os = i.os := by
  split <;> rfl

theorem dev_symStep (i : CollectedInfo) (v : Option Str) (c : Prop) [Decidable c] :
    (if c then i else { i with symptom := v }).deviceType = i.deviceType := by
  split <;> rfl

theorem sym_symStep (i : CollectedInfo) (v : Option Str) (c : Prop) [Decidable c] :
    (if c then i else { i with symptom := v }).symptom =
    (if c then i.symptom else v) := by
  split <;> rfl

theorem ac_symStep (i : CollectedInfo) (v : Option Str) (c : Prop) [Decidable c] :
    (if c then i else { i with symptom := v }).additionalContext =
      i.additionalContext := by
  split <;> rfl

theorem os_ctxStep (i : CollectedInfo) (v : Option Str) (c : Prop) [Decidable c] :
    (if c then { i with additionalContext := v } else i).os = i.os := by
  split <;> rfl

theorem dev_ctxStep (i : CollectedInfo) (v : Option Str) (c : Prop) [Decidable c] :
    (if c then { i with additionalContext := v } else i).deviceType =
      i.deviceType := by
  split <;> rfl

theorem sym_ctxStep (i : CollectedInfo) (v : Option Str) (c : Prop) [Decidable c] :
    (if c then { i with additionalContext := v } else i).symptom = i.symptom := by
  split <;> rfl

theorem ac_ctxStep (i : CollectedInfo) (v : Option Str) (c : Prop) [Decidable c] :
    (if c then { i with additionalContext := v } else i).additionalContext =
    (if c then v else i.additionalContext) := by
  split <;> rfl

theorem extractInfo_os (e : Option CollectedInfo) (m : Str) :
    (extractInfo e m).os =
      (if truthyS (e.getD {}).os then (e.getD {}).os
       else
         match osMatch (toLowerStr m) with
         | some s => some s
         | none => (e.getD {}).os) := by
  simp only [extractInfo]
  rw [os_ctxStep, os_symStep, os_devStep, os_osStep]

theorem extractInfo_deviceType (e : Option CollectedInfo) (m : Str) :
    (extractInfo e m).deviceType =
      (if truthyS (e.getD {}).deviceType then (e.getD {}).deviceType
       else
         match deviceMatch (toLowerStr m) with
         | some s => some s
         | none => (e.getD {}).deviceType) := by
  simp only [extractInfo]
  rw [dev_ctxStep, dev_symStep, dev_devStep, dev_osStep]

theorem extractInfo_symptom (e : Option CollectedInfo) (m : Str) :
    (extractInfo e m).symptom =
      (if truthyS (e.getD {}).symptom then (e.getD {}).symptom
       else some (m.take 200)) := by
  simp only [extractInfo]
  rw [sym_ctxStep, sym_symStep, sym_devStep, sym_osStep]

theorem extractInfo_additionalContext (e : Option CollectedInfo) (m : Str) :
    (extractInfo e m).additionalContext =
      (if 5 ≤ wordCount m then
        some ((if truthyS (e.getD {}).additionalContext then
            (e.getD {}).additionalContext.getD [] ++ lit " | "
          else []) ++ m.take 300)
       else (e.getD {}).additionalContext) := by
  simp only [extractInfo]
  rw [ac_ctxStep, ac_symStep, ac_devStep, ac_osStep]

/-- **C7** (invariants): the extractor preserves already-filled fields:
a non-empty `os`/`deviceType` slot is returned unchanged (first writer
wins), a captured (truthy) `symptom` is never replaced, and
`additionalContext` is only ever appended to. -/
theorem c7_extractor_preserves (existing : Option CollectedInfo) (m : Str) :
    (truthyS (existing.getD {}).os = true →
      (extractInfo existing m).os = (existing.getD {}).os) ∧
    (truthyS (existing.getD {}).deviceType = true →
      (extractInfo existing m).deviceType = (existing.getD {}).deviceType) ∧
    (truthyS (existing.getD {}).symptom = true →
      (extractInfo existing m).symptom = (existing.getD {}).symptom) ∧
    (∀ a, (existing.getD {}).additionalContext = some a →
      ∃ t, (extractInfo existing m).additionalContext = some (a ++ t)) := by
  refine ⟨?_, ?_, ?_, ?_⟩
  · intro h
    rw [extractInfo_os]
    simp [h]
  · intro h
    rw [extractInfo_deviceType]
    simp [h]
  · intro h
    rw [extractInfo_symptom]
    simp [h]
  · intro a ha
    rw [extractInfo_additionalContext]
    by_cases hw : 5 ≤ wordCount m
    · rw [if_pos hw]
      by_cases ht : truthyS (existing.getD {}).additionalContext = true
      · refine ⟨lit " | " ++ m.take 300, ?_⟩
        rw [if_pos ht, ha]
        simp [List.append_assoc]
      · have ha0 : a = [] := by
          rw [ha] at ht
          simpa [truthyS] using ht
        refine ⟨m.take 300, ?_⟩
        rw [if_neg ht]
        simp [ha0]
    · rw [if_neg hw]
      exact ⟨[], by simp [ha]⟩

/-- Witness for C7: a filled record is preserved, in particular an `os`
slot already holding "windows" is not overwritten by a later "mac os"
mention. -/
theorem c7_extractor_preserves_witness :
    (extractInfo (some filledInfo) contradictingMsg).os = some (lit "windows") ∧
    (extractInfo (some filledInfo) contradictingMsg).deviceType = some (lit "laptop") ∧
    (extractInfo (some filledInfo) contradictingMsg).symptom =
      some (lit "screen is black") ∧
    ∃ t, (extractInfo (some filledInfo) contradictingMsg).additionalContext =
      some (lit "ctx" ++ t) := by
  have h := c7_extractor_preserves (some filledInfo) contradictingMsg
  exact ⟨h.1 (by decide), h.2.1 (by decide), h.2.2.1 (by decide),
    h.2.2.2 (lit "ctx") rfl⟩

/-- Structure extensionality for the collected-info record. -/
theorem CollectedInfo.ext' {a b : CollectedInfo} (h1 : a.os = b.os)
    (h2 : a.deviceType = b.deviceType) (h3 : a.symptom = b.symptom)
    (h4 : a.additionalContext = b.additionalContext) : a = b := by
  cases a
  cases b
  simp_all

/-- **C8 counterexample**: on the 5-word message "a b c d e", re-running
the extractor appends a duplicate `additionalContext` entry, so
extractInfo(extractInfo(r, m), m) differs from extractInfo(r, m). -/
theorem c8_idempotent_cex :
    extractInfo (some (extractInfo none (lit "a b c d e"))) (lit "a b c d e") ≠
      extractInfo none (lit "a b c d e") := by decide

/-- **C8 (amended)**: re-running the extractor on the same message leaves
`os`, `deviceType` and `symptom` unchanged, and leaves the whole record
unchanged when the message is shorter than 5 words; for a message of at
least 5 words the second run appends a duplicate `additionalContext`
entry, so the re-run is lossless but not literally idempotent. -/
theorem c8_rerun_stable (e : Option CollectedInfo) (m : Str) :
    (extractInfo (some (extractInfo e m)) m).os = (extractInfo e m).os ∧
    (extractInfo (some (extractInfo e m)) m).deviceType =
      (extractInfo e m).deviceType ∧
    (extractInfo (some (extractInfo e m)) m).symptom =
      (extractInfo e m).symptom ∧
    (wordCount m < 5 →
      extractInfo (some (extractInfo e m)) m = extractInfo e m) := by
  have hos : (extractInfo (some (extractInfo e m)) m).os = (extractInfo e m).os := by
    rw [extractInfo_os, extractInfo_os]
    simp only [Option.getD_some]
    rw [extractInfo_os]
    generalize (e.getD {}).os = X
    generalize osMatch (toLowerStr m) = om
    by_cases h1 : truthyS X = true
    · simp [h1]
    · cases om <;> simp [h1]
  have hdev : (extractInfo (some (extractInfo e m)) m).deviceType =
      (extractInfo e m).deviceType := by
    rw [extractInfo_deviceType, extractInfo_deviceType]
    simp only [Option.getD_some]
    rw [extractInfo_deviceType]
    generalize (e.getD {}).deviceType = X
    generalize deviceMatch (toLowerStr m) = om
    by_cases h1 : truthyS X = true
    · simp [h1]
    · cases om <;> simp [h1]
  have hsym : (extractInfo (some (extractInfo e m)) m).symptom =
      (extractInfo e m).symptom := by
    rw [extractInfo_symptom, extractInfo_symptom]
    simp only [Option.getD_some]
    rw [extractInfo_symptom]
    generalize (e.getD {}).symptom = X
    by_cases h1 : truthyS X = true
    · simp [h1]
    · simp [h1]
  refine ⟨hos, hdev, hsym, ?_⟩
  intro hw
  have hw' : ¬ 5 ≤ wordCount m := by omega
  refine CollectedInfo.ext' hos hdev hsym ?_
  rw [extractInfo_additionalContext, extractInfo_additionalContext,
    if_neg hw', if_neg hw']
  simp only [Option.getD_some]
  rw [extractInfo_additionalContext, if_neg hw']

/-- Witness for the amended C8 on a concrete short message. -/
theorem c8_rerun_stable_witness :
    extractInfo (some (extractInfo none (lit "hi"))) (lit "hi") =
      extractInfo none (lit "hi") :=
  (c8_rerun_stable none (lit "hi")).2.2.2 (by decide)

/-! ## Lowercasing facts for the extractor (C10) -/

/-- `Char.ofNatAux` stores exactly the given code point. -/
theorem toNat_ofNatAux (n : Nat) (h : n.isValidChar) :
    (Char.ofNatAux n h).toNat = n := rfl

/-- Lowercasing a character never yields an uppercase ASCII letter. -/
theorem lowerChar_notUpper (c : Char) : notUpper (lowerChar c) = true := by
  unfold notUpper lowerChar
  split
  case isTrue h =>
    simp only [decide_eq_true_eq, toNat_ofNatAux]
    omega
  case isFalse h =>
    exact decide_eq_true h

/-- The lowercased message contains no uppercase ASCII letter. -/
theorem isLowerStr_toLowerStr (m : Str) : isLowerStr (toLowerStr m) = true := by
  unfold isLowerStr toLowerStr
  rw [List.all_eq_true]
  intro c hc
  obtain ⟨x, -, rfl⟩ := List.mem_map.mp hc
  exact lowerChar_notUpper x

/-- A matched prefix consists of characters of the scanned string. -/
theorem startsWithStr_mem {p l : Str} (h : startsWithStr p l = true) :
    ∀ c ∈ p, c ∈ l := by
  induction p generalizing l with
  | nil => intro c hc; cases hc
  | cons a p ih =>
    cases l with
    | nil => simp [startsWithStr] at h
    | cons b l =>
      simp only [startsWithStr, Bool.and_eq_true] at h
      obtain ⟨hab, hrest⟩ := h
      intro c hc
      rcases List.mem_cons.mp hc with rfl | hc'
      · have hab' : c = b := of_decide_eq_true hab
        rw [hab']
        exact List.mem_cons_self b l
      · exact List.mem_cons_of_mem b (ih hrest c hc')

/-- A successful literal-alternative match returns the literal itself. -/
theorem matchLitWord_chars {w l s : Str} (h : matchLitWord w l = some s) :
    s = w := by
  unfold matchLitWord at h
  split at h
  · exact (Option.some.inj h).symm
  · cases h

/-- Every character of a `windows\s*\d*` match is either a character of
the scanned string or not an uppercase ASCII letter. -/
theorem matchWindowsNum_chars {l s : Str} (h : matchWindowsNum l = some s) :
    ∀ c ∈ s, c ∈ l ∨ notUpper c = true := by
  unfold matchWindowsNum at h
  split at h
  case isTrue hsw =>
    have hs := (Option.some.inj h).symm
    subst hs
    intro c hc
    rcases List.mem_append.mp hc with hc1 | hc2
    · rcases List.mem_append.mp hc1 with hcw | hcws
      · exact Or.inr ((by decide : ∀ x ∈ lit "windows", notUpper x = true) c hcw)
      · exact Or.inl (List.drop_subset 7 l ((List.takeWhile_sublist jsWS).subset hcws))
    · have h1 := (List.takeWhile_sublist Char.isDigit).subset hc2
      have h2 := (List.dropWhile_sublist jsWS).subset h1
      exact Or.inl (List.drop_subset 7 l h2)
  case isFalse hsw => cases h

/-- Every character of a `mac\s*os` match is either a character of the
scanned string or not an uppercase ASCII letter. -/
theorem matchMacOs_chars {l s : Str} (h : matchMacOs l = some s) :
    ∀ c ∈ s, c ∈ l ∨ notUpper c = true := by
  simp only [matchMacOs] at h
  split at h
  case isTrue hsw =>
    split at h
    case isTrue hos =>
      have hs := (Option.some.inj h).symm
      subst hs
      intro c hc
      rcases List.mem_append.mp hc with hc1 | hc2
      · rcases List.mem_append.mp hc1 with hcw | hcws
        · exact Or.inr ((by decide : ∀ x ∈ lit "mac", notUpper x = true) c hcw)
        · exact Or.inl (List.drop_subset 3 l ((List.takeWhile_sublist jsWS).subset hcws))
      · exact Or.inr ((by decide : ∀ x ∈ lit "os", notUpper x = true) c hc2)
    case isFalse hos => cases h
  case isFalse hsw => cases h

/-- Propagate the character property through an ordered alternation. -/
theorem firstSome_chars {fs : List (Str → Option Str)} {l s : Str}
    (h : firstSome fs l = some s)
    (H : ∀ f ∈ fs, ∀ l' s', f l' = some s' → ∀ c ∈ s', c ∈ l' ∨ notUpper c = true) :
    ∀ c ∈ s, c ∈ l ∨ notUpper c = true := by
  induction fs with
  | nil => cases h
  | cons f fs ih =>
    unfold firstSome at h
    cases hf : f l with
    | some v =>
      simp only [hf] at h
      obtain rfl := Option.some.inj h
      exact H f (List.mem_cons_self f fs) l _ hf
    | none =>
      simp only [hf] at h
      exact ih h fun f' hf' => H f' (List.mem_cons_of_mem f hf')

/-- Propagate the character property through the leftmost scan. -/
theorem firstMatch_chars {alt : Str → Option Str} {l s : Str}
    (h : firstMatch alt l = some s)
    (H : ∀ l' s', alt l' = some s' → ∀ c ∈ s', c ∈ l' ∨ notUpper c = true) :
    ∀ c ∈ s, c ∈ l ∨ notUpper c = true := by
  induction l with
  | nil => exact H [] s h
  | cons a l ih =>
    unfold firstMatch at h
    cases ha : alt (a :: l) with
    | some v =>
      simp only [ha] at h
      obtain rfl := Option.some.inj h
      exact H (a :: l) _ ha
    | none =>
      simp only [ha] at h
      intro c hc
      rcases ih h c hc with hc' | hu
      · exact Or.inl (List.mem_cons_of_mem a hc')
      · exact Or.inr hu

/-- Every character of an OS-regex match comes from the scanned string or
is not an uppercase ASCII letter. -/
theorem osMatch_chars {l s : Str} (h : osMatch l = some s) :
    ∀ c ∈ s, c ∈ l ∨ notUpper c = true := by
  apply firstMatch_chars h
  intro l' s' h'
  apply firstSome_chars h'
  intro f hf l'' s'' h''
  simp only [osAlts, List.mem_cons, List.not_mem_nil, or_false] at hf
  rcases hf with rfl | rfl | rfl | rfl | rfl | rfl | rfl | rfl
  · exact matchWindowsNum_chars h''
  · intro c hc
    rw [matchLitWord_chars h''] at hc
    exact Or.inr ((by decide : ∀ x ∈ lit "macos", notUpper x = true) c hc)
  · exact matchMacOs_chars h''
  · intro c hc
    rw [matchLitWord_chars h''] at hc
    exact Or.inr ((by decide : ∀ x ∈ lit "linux", notUpper x = true) c hc)
  · intro c hc
    rw [matchLitWord_chars h''] at hc
    exact Or.inr ((by decide : ∀ x ∈ lit "ubuntu", notUpper x = true) c hc)
  · intro c hc
    rw [matchLitWord_chars h''] at hc
    exact Or.inr ((by decide : ∀ x ∈ lit "ios", notUpper x = true) c hc)
  · intro c hc
    rw [matchLitWord_chars h''] at hc
    exact Or.inr ((by decide : ∀ x ∈ lit "android", notUpper x = true) c hc)
  · intro c hc
    rw [matchLitWord_chars h''] at hc
    exact Or.inr ((by decide : ∀ x ∈ lit "chromeos", notUpper x = true) c hc)

/-- Every character of a device-regex match comes from the scanned string
or is not an uppercase ASCII letter. -/
theorem deviceMatch_chars {l s : Str} (h : deviceMatch l = some s) :
    ∀ c ∈ s, c ∈ l ∨ notUpper c = true := by
  apply firstMatch_chars h
  intro l' s' h'
  apply firstSome_chars h'
  intro f hf l'' s'' h''
  obtain ⟨w, hw, rfl⟩ := List.mem_map.mp hf
  intro c hc
  rw [matchLitWord_chars h''] at hc
  exact Or.inr
    ((by decide : ∀ w ∈ deviceWords, ∀ x ∈ w, notUpper x = true) w hw c hc)

/-- A successful OS match on the lowercased message is entirely
lowercase. -/
theorem osMatch_lower {m s : Str} (h : osMatch (toLowerStr m) = some s) :
    isLowerStr s = true := by
  unfold isLowerStr
  rw [List.all_eq_true]
  intro c hc
  rcases osMatch_chars h c hc with hin | hu
  · have hl := isLowerStr_toLowerStr m
    unfold isLowerStr at hl
    rw [List.all_eq_true] at hl
    exact hl c hin
  · exact hu

/-- A successful device match on the lowercased message is entirely
lowercase. -/
theorem deviceMatch_lower {m s : Str} (h : deviceMatch (toLowerStr m) = some s) :
    isLowerStr s = true := by
  unfold isLowerStr
  rw [List.all_eq_true]
  intro c hc
  rcases deviceMatch_chars h c hc with hin | hu
  · have hl := isLowerStr_toLowerStr m
    unfold isLowerStr at hl
    rw [List.all_eq_true] at hl
    exact hl c hin
  · exact hu

/-- **C10** (functional_correctness): the `os` and `deviceType` values the
extractor stores are always entirely lowercase (matching runs against the
lowercased message and the matched lowercase substring is stored
verbatim), while `symptom` and `additionalContext` store prefixes of the
message with its original casing. -/
theorem c10_lowercase_slots (e : Option CollectedInfo) (m : Str) :
    ((extractInfo e m).os = (e.getD {}).os ∨
      ∃ s, (extractInfo e m).os = some s ∧ isLowerStr s = true) ∧
    ((extractInfo e m).deviceType = (e.getD {}).deviceType ∨
      ∃ s, (extractInfo e m).deviceType = some s ∧ isLowerStr s = true) ∧
    ((extractInfo e m).symptom = (e.getD {}).symptom ∨
      (extractInfo e m).symptom = some (m.take 200)) ∧
    ((extractInfo e m).additionalContext = (e.getD {}).additionalContext ∨
      ∃ p, (extractInfo e m).additionalContext = some (p ++ m.take 300)) := by
  refine ⟨?_, ?_, ?_, ?_⟩
  · rw [extractInfo_os]
    by_cases h1 : truthyS (e.getD {}).os = true
    · left
      simp [h1]
    · cases hm : osMatch (toLowerStr m) with
      | some s =>
        right
        exact ⟨s, by simp [h1], osMatch_lower hm⟩
      | none =>
        left
        simp [h1]
  · rw [extractInfo_deviceType]
    by_cases h1 : truthyS (e.getD {}).deviceType = true
    · left
      simp [h1]
    · cases hm : deviceMatch (toLowerStr m) with
      | some s =>
        right
        exact ⟨s, by simp [h1], deviceMatch_lower hm⟩
      | none =>
        left
        simp [h1]
  · rw [extractInfo_symptom]
    by_cases h1 : truthyS (e.getD {}).symptom = true
    · left
      simp [h1]
    · right
      simp [h1]
  · rw [extractInfo_additionalContext]
    by_cases hw : 5 ≤ wordCount m
    · right
      exact ⟨_, by rw [if_pos hw]⟩
    · left
      rw [if_neg hw]

/-! ## Word-count facts for `trimToWords` (C3) -/

/-- `split(/\s+/)` never returns an empty list. -/
theorem splitWS_ne_nil (l : Str) : splitWS l ≠ [] := by
  induction l with
  | nil => simp [splitWS]
  | cons c rest ih =>
    unfold splitWS
    split
    · cases rest with
      | nil => simp
      | cons c2 r =>
        by_cases h2 : jsWS c2 = true
        · simpa [h2] using ih
        · simp [h2]
    · cases hs : splitWS rest with
      | nil => simp
      | cons s ss => simp

/-- Characters inside a split segment are never whitespace. -/
theorem splitWS_wsFree {l : Str} :
    ∀ {s : Str}, s ∈ splitWS l → ∀ c ∈ s, jsWS c = false := by
  induction l with
  | nil =>
    intro s hs c hc
    simp only [splitWS, List.mem_singleton] at hs
    subst hs
    cases hc
  | cons a rest ih =>
    intro s hs c hc
    unfold splitWS at hs
    split at hs
    case isTrue ha =>
      split at hs
      · rcases List.mem_cons.mp hs with rfl | hs'
        · cases hc
        · rcases List.mem_cons.mp hs' with rfl | hs''
          · cases hc
          · cases hs''
      · split at hs
        · exact ih hs c hc
        · rcases List.mem_cons.mp hs with rfl | hs'
          · cases hc
          · exact ih hs' c hc
    case isFalse ha =>
      split at hs
      case h_1 heq =>
        rcases List.mem_cons.mp hs with rfl | hs'
        · rcases List.mem_cons.mp hc with rfl | hc'
          · simpa using ha
          · cases hc'
        · cases hs'
      case h_2 s1 ss1 heq =>
        rcases List.mem_cons.mp hs with rfl | hs'
        · rcases List.mem_cons.mp hc with rfl | hc'
          · simpa using ha
          · exact ih (heq ▸ List.mem_cons_self s1 ss1) c hc'
        · exact ih (heq ▸ List.mem_cons_of_mem s1 hs') c hc

/-- Prepending whitespace-free characters extends the first segment and
leaves the rest of the split unchanged. -/
theorem splitWS_append_wsFree {a b : Str} {s : Str} {ss : List Str}
    (hb : splitWS b = s :: ss) (ha : ∀ c ∈ a, jsWS c = false) :
    splitWS (a ++ b) = (a ++ s) :: ss := by
  induction a with
  | nil => simpa using hb
  | cons c a' ih =>
    have hc : jsWS c = false := ha c (List.mem_cons_self c a')
    have ih' := ih fun x hx => ha x (List.mem_cons_of_mem c hx)
    rw [List.cons_append]
    simp only [splitWS, hc, Bool.false_eq_true, if_false, ih']
    simp

/-- A whitespace-free string is a single segment. -/
theorem splitWS_wsFree_eq {a : Str} (ha : ∀ c ∈ a, jsWS c = false) :
    splitWS a = [a] := by
  have h := @splitWS_append_wsFree a [] [] [] rfl ha
  simpa using h

/-- Prepending whitespace-free characters does not change the word
count. -/
theorem wordCount_append_wsFree {s b : Str} (hs : ∀ c ∈ s, jsWS c = false) :
    wordCount (s ++ b) = wordCount b := by
  obtain ⟨s0, ss0, hb⟩ : ∃ s0 ss0, splitWS b = s0 :: ss0 := by
    cases hsb : splitWS b with
    | nil => exact absurd hsb (splitWS_ne_nil b)
    | cons x xs => exact ⟨x, xs, rfl⟩
  unfold wordCount
  rw [splitWS_append_wsFree hb hs, hb]
  simp

/-- One leading space adds at most one word. -/
theorem wordCount_cons_ws (c2 : Char) (r : Str) :
    wordCount (' ' :: c2 :: r) ≤ 1 + wordCount (c2 :: r) := by
  unfold wordCount
  rw [splitWS]
  have hsp : jsWS ' ' = true := rfl
  by_cases h2 : jsWS c2 = true
  · simp [hsp, h2]
  · simp [hsp, h2]
    omega

/-- Joining whitespace-free segments with single spaces and appending a
non-empty whitespace-free trailer yields at most one word per segment. -/
theorem wordCount_joinSp_append {xs : List Str} {tail : Str}
    (hxs : xs ≠ []) (hall : ∀ s ∈ xs, ∀ c ∈ s, jsWS c = false)
    (htail : tail ≠ []) (htws : ∀ c ∈ tail, jsWS c = false) :
    wordCount (joinSp xs ++ tail) ≤ xs.length := by
  induction xs with
  | nil => cases hxs rfl
  | cons s ss ih =>
    cases ss with
    | nil =>
      have h1 : ∀ c ∈ s ++ tail, jsWS c = false := by
        intro c hc
        rcases List.mem_append.mp hc with h | h
        · exact hall s (List.mem_cons_self s []) c h
        · exact htws c h
      simp [joinSp, wordCount, splitWS_wsFree_eq h1]
    | cons s2 ss' =>
      have hjoin : joinSp (s :: s2 :: ss') ++ tail =
          s ++ (' ' :: (joinSp (s2 :: ss') ++ tail)) := by
        simp [joinSp]
      rw [hjoin]
      rw [wordCount_append_wsFree (hall s (List.mem_cons_self s (s2 :: ss')))]
      have hne : joinSp (s2 :: ss') ++ tail ≠ [] := by
        intro h0
        exact htail (List.append_eq_nil.mp h0).2
      obtain ⟨c2, r, hcr⟩ : ∃ c2 r, joinSp (s2 :: ss') ++ tail = c2 :: r := by
        cases hj : joinSp (s2 :: ss') ++ tail with
        | nil => exact absurd hj hne
        | cons x xs => exact ⟨x, xs, rfl⟩
      rw [hcr]
      have hih := ih (by simp) fun s' hs' => hall s' (List.mem_cons_of_mem s hs')
      rw [hcr] at hih
      calc wordCount (' ' :: c2 :: r) ≤ 1 + wordCount (c2 :: r) :=
            wordCount_cons_ws c2 r
        _ ≤ 1 + (s2 :: ss').length := by omega
        _ = (s :: s2 :: ss').length := by
            simp only [List.length_cons]
            omega

/-- `trimToWords` enforces the word budget. -/
theorem wordCount_trimToWords_le (text : Str) (k : Nat) (hk : 1 ≤ k) :
    wordCount (trimToWords text k) ≤ k := by
  unfold trimToWords
  by_cases hlt : k < (splitWS text).length
  · rw [if_pos hlt]
    have hlen : (List.take k (splitWS text)).length = k := by
      rw [List.length_take]
      omega
    calc wordCount (joinSp (List.take k (splitWS text)) ++ dots) ≤
          (List.take k (splitWS text)).length := by
          apply wordCount_joinSp_append
          · intro h0
            rw [h0] at hlen
            simp at hlen
            omega
          · intro s hsm c hc
            exact splitWS_wsFree (List.take_subset k _ hsm) c hc
          · decide
          · decide
      _ ≤ k := by omega
  · rw [if_neg hlt]
    unfold wordCount
    omega

set_option maxRecDepth 4000 in
/-- **C3 counterexample**: on a non-JSON raw string of 61 words with
requested phase COLLECT_INFO, the fallback path uses the raw text as the
message without word capping, so its word count exceeds 60. -/
theorem c3_message_budget_cex :
    60 < wordCount (normalizeResponse ChatPhase.COLLECT_INFO longRaw).message := by
  decide

/-- **C3 (amended)**: the word budget (60 for COLLECT_INFO, 80 for
DIAGNOSE) holds for every response produced by the enforcement path of
the normalizer — i.e. whenever the try-block completes without an
exception; on the parse-failure/exception fallback path the raw text is
used as the message with no word cap. -/
theorem c3_message_budget_amended (phase : ChatPhase) (v : Js)
    (r : StructuredAIResponse) (h : normalizeAttempt phase v = Except.ok r) :
    wordCount r.message ≤ wordBudget phase := by
  cases phase with
  | COLLECT_INFO =>
    obtain ⟨f, msgStr, q, -, -, -, hr⟩ := normalizeAttempt_collect_ok h
    subst hr
    exact wordCount_trimToWords_le msgStr 60 (by omega)
  | DIAGNOSE =>
    obtain ⟨f, msgStr, s, -, -, -, hr⟩ := normalizeAttempt_diagnose_ok h
    subst hr
    exact wordCount_trimToWords_le msgStr 80 (by omega)

/-- Witness for the amended C3 on a concrete well-formed backend reply. -/
theorem c3_message_budget_amended_witness :
    wordCount (normalizeResponse ChatPhase.COLLECT_INFO
      (lit "\x7b\"message\":\"hello there\"\x7d")).message ≤
      wordBudget ChatPhase.COLLECT_INFO := by
  have h : normalizeAttempt ChatPhase.COLLECT_INFO
      (Js.obj [(lit "message", Js.str (lit "hello there"))]) =
      Except.ok (normalizeResponse ChatPhase.COLLECT_INFO
        (lit "\x7b\"message\":\"hello there\"\x7d")) := rfl
  exact c3_message_budget_amended ChatPhase.COLLECT_INFO _ _ h

end CopilotExtender
